import Mathlib

/- Verification of the yt frontend fragment consisting of
   yt/frontends/exodus_ii/data_structures.py (Exodus II mesh frontend) and
   yt/frontends/ytdata/data_structures.py (YTData HDF5 container frontend).

   The embedding models Python-level control flow explicitly: fallible
   statements return `Except PyErr`, uncaught exceptions propagate through
   `estep`, and try/except blocks are translated as matches on the error
   constructor.  Machine floats stored in the files are only ever moved
   (selected, copied, compared), never computed with, so array scalars are
   modelled as rationals and the astype("f8") casts as exact. -/

namespace YtEmbed

/-- Python exception classes that the embedded fragment can raise. -/
inductive PyErr
  | keyError
  | typeError
  | indexError
  | osError
  | nameError
  | valueError
deriving DecidableEq

/-- Sequencing of two fallible Python statements: an uncaught exception in
the first statement aborts the whole suite. -/
def estep {α β : Type} (x : Except PyErr α) (g : α → Except PyErr β) : Except PyErr β :=
  match x with
  | Except.error e => Except.error e
  | Except.ok a => g a

theorem estep_ok {α β : Type} {x : Except PyErr α} {g : α → Except PyErr β} {b : β} :
    estep x g = Except.ok b ↔ ∃ a, x = Except.ok a ∧ g a = Except.ok b := by
  cases x <;> simp [estep]

theorem estep_err {α β : Type} {x : Except PyErr α} {g : α → Except PyErr β} {e : PyErr} :
    estep x g = Except.error e ↔
      x = Except.error e ∨ ∃ a, x = Except.ok a ∧ g a = Except.error e := by
  cases x <;> simp [estep]

/-- Python mapping lookup `d[k]` on an optional slot: a missing key raises
KeyError. -/
def pyGetKey {α : Type} (o : Option α) : Except PyErr α :=
  match o with
  | some v => Except.ok v
  | none => Except.error PyErr.keyError

theorem pyGetKey_ok {α : Type} {o : Option α} {v : α} :
    pyGetKey o = Except.ok v ↔ o = some v := by
  cases o <;> simp [pyGetKey]

theorem pyGetKey_none {α : Type} {o : Option α} (h : o = none) :
    pyGetKey o = Except.error PyErr.keyError := by
  rw [h]; rfl

/-- A Python for-loop that builds a list from the elements of another list,
propagating the first uncaught exception. -/
def mapExcept {α β : Type} (g : α → Except PyErr β) : List α → Except PyErr (List β)
  | [] => Except.ok []
  | a :: as =>
    match g a with
    | Except.error e => Except.error e
    | Except.ok b =>
      match mapExcept g as with
      | Except.error e => Except.error e
      | Except.ok bs => Except.ok (b :: bs)

theorem mapExcept_ok_length {α β : Type} {g : α → Except PyErr β} :
    ∀ {l : List α} {out : List β}, mapExcept g l = Except.ok out → out.length = l.length := by
  intro l
  induction l with
  | nil =>
    intro out h
    simp only [mapExcept] at h
    cases h
    rfl
  | cons a as ih =>
    intro out h
    simp only [mapExcept] at h
    cases hga : g a with
    | error e => rw [hga] at h; exact absurd h (by simp)
    | ok b =>
      rw [hga] at h
      cases hrest : mapExcept g as with
      | error e => rw [hrest] at h; exact absurd h (by simp)
      | ok bs =>
        rw [hrest] at h
        simp only [Except.ok.injEq] at h
        rw [← h]
        simp [ih hrest]

theorem mapExcept_ok_get {α β : Type} {g : α → Except PyErr β} :
    ∀ {l : List α} {out : List β}, mapExcept g l = Except.ok out →
      ∀ i a, l.get? i = some a → ∃ b, out.get? i = some b ∧ g a = Except.ok b := by
  intro l
  induction l with
  | nil => intro out _ i a ha; simp at ha
  | cons x xs ih =>
    intro out h i a ha
    simp only [mapExcept] at h
    cases hgx : g x with
    | error e => rw [hgx] at h; exact absurd h (by simp)
    | ok b =>
      rw [hgx] at h
      cases hrest : mapExcept g xs with
      | error e => rw [hrest] at h; exact absurd h (by simp)
      | ok bs =>
        rw [hrest] at h
        simp only [Except.ok.injEq] at h
        rw [← h]
        cases i with
        | zero =>
          simp only [List.get?] at ha
          cases ha
          exact ⟨b, by simp, hgx⟩
        | succ n =>
          simp only [List.get?] at ha ⊢
          exact ih hrest n a ha

/-- NumPy index resolution along one axis: negative indices count from the
end of the axis. -/
def npIndex (n : Nat) (i : Int) : Int := if i < 0 then i + n else i

/-- NumPy integer indexing along the leading axis: a resolved index outside
the axis raises IndexError. -/
def npGet {α : Type} (xs : List α) (i : Int) : Except PyErr α :=
  if 0 ≤ npIndex xs.length i ∧ npIndex xs.length i < (xs.length : Int) then
    match xs.get? (npIndex xs.length i).toNat with
    | some v => Except.ok v
    | none => Except.error PyErr.indexError
  else Except.error PyErr.indexError

theorem npGet_ok {α : Type} {xs : List α} {i : Int} {v : α} :
    npGet xs i = Except.ok v ↔
      0 ≤ npIndex xs.length i ∧ npIndex xs.length i < (xs.length : Int) ∧
        xs.get? (npIndex xs.length i).toNat = some v := by
  unfold npGet
  split
  case isTrue hg =>
    cases hx : xs.get? (npIndex xs.length i).toNat with
    | none => simp [hg.1, hg.2]
    | some w => simp [hg.1, hg.2]
  case isFalse hg =>
    constructor
    · intro h; exact absurd h (by simp)
    · intro h; exact absurd ⟨h.1, h.2.1⟩ hg

theorem npGet_ok_nonneg {α : Type} {xs : List α} {i : Int} {v : α}
    (hi : 0 ≤ i) (h : npGet xs i = Except.ok v) : xs.get? i.toNat = some v := by
  rw [npGet_ok] at h
  have hni : npIndex xs.length i = i := by
    unfold npIndex; rw [if_neg (not_lt.mpr hi)]
  rw [hni] at h
  exact h.2.2

theorem npGet_last {α : Type} {xs : List α} {v : α}
    (h : npGet xs (-1) = Except.ok v) : xs.get? (xs.length - 1) = some v := by
  rw [npGet_ok] at h
  obtain ⟨h1, h2, h3⟩ := h
  have hni : npIndex xs.length (-1) = -1 + (xs.length : Int) := by
    unfold npIndex; rw [if_pos (by norm_num)]
  rw [hni] at h1 h2 h3
  have ht : ((-1 : Int) + (xs.length : Int)).toNat = xs.length - 1 := by omega
  rw [ht] at h3
  exact h3

/-- numpy astype("i8"): wrap an integer into the signed 64-bit range. -/
def castI8 (v : Int) : Int := (v + 2 ^ 63) % 2 ^ 64 - 2 ^ 63

theorem castI8_eq_self {v : Int} (h1 : -(2 ^ 63) ≤ v) (h2 : v < 2 ^ 63) :
    castI8 v = v := by
  unfold castI8
  have e63 : (2 : Int) ^ 63 = 9223372036854775808 := by norm_num
  have e64 : (2 : Int) ^ 64 = 18446744073709551616 := by norm_num
  have hmod : (v + 2 ^ 63) % 2 ^ 64 = v + 2 ^ 63 :=
    Int.emod_eq_of_lt (by omega) (by omega)
  omega

/-- numpy .transpose() of a rectangular 2-D float array given as a list of
rows. -/
def npTranspose (m : List (List ℚ)) : List (List ℚ) :=
  match m with
  | [] => []
  | r :: _ => (List.range r.length).map (fun j => m.map (fun row => row.getD j 0))

theorem npTranspose_length {r : List ℚ} {rs : List (List ℚ)} :
    (npTranspose (r :: rs)).length = r.length := by
  simp [npTranspose]

theorem npTranspose_mem_length {m : List (List ℚ)} {row : List ℚ}
    (h : row ∈ npTranspose m) : row.length = m.length := by
  cases m with
  | nil => simp [npTranspose] at h
  | cons r rs =>
    simp only [npTranspose, List.mem_map] at h
    obtain ⟨j, _, hj⟩ := h
    rw [← hj]
    simp

theorem npTranspose_get {r : List ℚ} {rs : List (List ℚ)} {j : Nat} (hj : j < r.length) :
    (npTranspose (r :: rs)).get? j = some ((r :: rs).map (fun row => row.getD j 0)) := by
  show ((List.range r.length).map fun k => (r :: rs).map fun row => row.getD k 0).get? j = _
  rw [List.get?_map, List.get?_range hj]
  rfl

theorem get?_eq_some_getD {α : Type} (d0 : α) :
    ∀ (l : List α) (d : Nat), d < l.length → l.get? d = some (l.getD d d0) := by
  intro l
  induction l with
  | nil => intro d hd; simp at hd
  | cons x xs ih =>
    intro d hd
    cases d with
    | zero => rfl
    | succ n =>
      simp only [List.get?, List.getD_cons_succ]
      exact ih n (by simpa using hd)

theorem zipWith_getD (f : ℚ → ℚ → ℚ) :
    ∀ (a b : List ℚ) (d : Nat), d < a.length → a.length = b.length →
      (a.zipWith f b).getD d 0 = f (a.getD d 0) (b.getD d 0) := by
  intro a
  induction a with
  | nil => intro b d hd _; simp at hd
  | cons x xs ih =>
    intro b d hd hb
    cases b with
    | nil => simp at hb
    | cons y ys =>
      cases d with
      | zero => rfl
      | succ n =>
        simp only [List.zipWith, List.getD_cons_succ]
        exact ih ys n (by simpa using hd) (by simpa using hb)

theorem foldl_zip_get (f : ℚ → ℚ → ℚ) :
    ∀ (rs : List (List ℚ)) (acc : List ℚ) (d : Nat),
      d < acc.length → (∀ r ∈ rs, r.length = acc.length) →
      (rs.foldl (fun a row => a.zipWith f row) acc).get? d =
        some (rs.foldl (fun (a : ℚ) row => f a (row.getD d 0)) (acc.getD d 0)) := by
  intro rs
  induction rs with
  | nil =>
    intro acc d hd _
    exact get?_eq_some_getD 0 acc d hd
  | cons r rest ih =>
    intro acc d hd hlen
    have hr : r.length = acc.length := hlen r (by simp)
    have hzl : (acc.zipWith f r).length = acc.length := by
      rw [List.length_zipWith, hr, min_self]
    simp only [List.foldl_cons]
    rw [ih (acc.zipWith f r) d (by rw [hzl]; exact hd)
        (fun q hq => by rw [hzl]; exact hlen q (by simp [hq]))]
    rw [zipWith_getD f acc r d hd hr.symm]

theorem foldl_op_mem (f : ℚ → ℚ → ℚ) (hf : ∀ a b, f a b = a ∨ f a b = b) :
    ∀ (l : List ℚ) (x : ℚ), l.foldl f x = x ∨ l.foldl f x ∈ l := by
  intro l
  induction l with
  | nil => intro x; left; rfl
  | cons a as ih =>
    intro x
    simp only [List.foldl_cons]
    rcases ih (f x a) with h | h
    · rw [h]
      rcases hf x a with h2 | h2
      · left; exact h2
      · right; rw [h2]; simp
    · right; simp [h]

theorem foldl_min_le (l : List ℚ) :
    ∀ (x : ℚ), l.foldl min x ≤ x ∧ ∀ q ∈ l, l.foldl min x ≤ q := by
  induction l with
  | nil => intro x; exact ⟨le_refl x, by simp⟩
  | cons a as ih =>
    intro x
    simp only [List.foldl_cons]
    obtain ⟨h1, h2⟩ := ih (min x a)
    refine ⟨le_trans h1 (min_le_left x a), ?_⟩
    intro q hq
    rcases List.mem_cons.mp hq with rfl | hq2
    · exact le_trans h1 (min_le_right x q)
    · exact h2 q hq2

theorem foldl_max_ge (l : List ℚ) :
    ∀ (x : ℚ), x ≤ l.foldl max x ∧ ∀ q ∈ l, q ≤ l.foldl max x := by
  induction l with
  | nil => intro x; exact ⟨le_refl x, by simp⟩
  | cons a as ih =>
    intro x
    simp only [List.foldl_cons]
    obtain ⟨h1, h2⟩ := ih (max x a)
    refine ⟨le_trans (le_max_left x a) h1, ?_⟩
    intro q hq
    rcases List.mem_cons.mp hq with rfl | hq2
    · exact le_trans (le_max_right x q) h1
    · exact h2 q hq2

/-- An HDF5 attribute value: a string, a scalar, or a numeric array. -/
inductive HVal
  | str : String → HVal
  | num : ℚ → HVal
  | arr : List ℚ → HVal
deriving DecidableEq

/-- An HDF5 file as the container frontend sees it: the root attribute
mapping and the top-level group names.  `ctime` is the creation-time stat
field of the file, in integer seconds. -/
structure H5File where
  attrs : List (String × HVal)
  groups : List String
  ctime : Int

/-- Python str.endswith, as a suffix test on the character sequence. -/
def pyEndsWith (s suffix : String) : Bool := suffix.data.isSuffixOf s.data

/-- The format tags YTDataContainerDataset._is_valid recognizes. -/
def recognizedContainerTags : List String :=
  ["light_ray", "yt_array_data", "yt_data_container"]

/-- The format tags YTGridDataset._is_valid recognizes. -/
def recognizedGridTags : List String := ["yt_grid_data"]

/-- YTDataContainerDataset._is_valid and YTGridDataset._is_valid, which differ
only in the recognized tag list.  The file system is a partial map from paths
to parsed files; a path at which opening raises (nonexistent or malformed
file) is mapped to `none`.  There is no try/except in the source: a failing
`h5py.File` open propagates its error. -/
def h5IsValid (tags : List String) (fs : String → Option H5File) (p : String) :
    Except PyErr Bool :=
  if !(pyEndsWith p ".h5") then Except.ok false
  else
    match fs p with
    | none => Except.error PyErr.osError
    | some f =>
      match f.attrs.lookup "data_type" with
      | some v => if v ∈ tags.map HVal.str then Except.ok true else Except.ok false
      | none => Except.ok false

/-- YTDataContainerDataset._is_valid (ytdata/data_structures.py lines 94-103). -/
def ytDataContainerIsValid (fs : String → Option H5File) (p : String) :
    Except PyErr Bool :=
  h5IsValid recognizedContainerTags fs p

/-- YTGridDataset._is_valid (ytdata/data_structures.py lines 128-135). -/
def ytGridIsValid (fs : String → Option H5File) (p : String) : Except PyErr Bool :=
  h5IsValid recognizedGridTags fs p

theorem h5IsValid_no_suffix {tags : List String} {fs : String → Option H5File}
    {p : String} (h : pyEndsWith p ".h5" = false) :
    h5IsValid tags fs p = Except.ok false := by
  unfold h5IsValid
  rw [h]
  rfl

theorem h5IsValid_open_ok (tags : List String) (fs : String → Option H5File)
    (p : String) (f : H5File) (hf : fs p = some f) :
    ∃ b, h5IsValid tags fs p = Except.ok b := by
  unfold h5IsValid
  cases hs : pyEndsWith p ".h5" with
  | false => exact ⟨false, rfl⟩
  | true =>
    simp only [Bool.not_true, Bool.false_eq_true, if_false, hf]
    cases hl : f.attrs.lookup "data_type" with
    | none => exact ⟨false, rfl⟩
    | some v =>
      by_cases hv : v ∈ tags.map HVal.str
      · exact ⟨true, by simp [hv]⟩
      · exact ⟨false, by simp [hv]⟩

theorem h5IsValid_tag (tags : List String) (fs : String → Option H5File)
    (p : String) (f : H5File) (hs : pyEndsWith p ".h5" = true) (hf : fs p = some f) :
    (f.attrs.lookup "data_type" = none → h5IsValid tags fs p = Except.ok false) ∧
    (∀ v, f.attrs.lookup "data_type" = some v →
       (v ∈ tags.map HVal.str → h5IsValid tags fs p = Except.ok true) ∧
       (v ∉ tags.map HVal.str → h5IsValid tags fs p = Except.ok false)) := by
  unfold h5IsValid
  rw [hs]
  simp only [Bool.not_true, Bool.false_eq_true, if_false, hf]
  constructor
  · intro hn
    simp [hn]
  · intro v hv
    constructor
    · intro hmem
      simp [hv, hmem]
    · intro hmem
      simp [hv, hmem]

theorem h5IsValid_open_fails (tags : List String) (fs : String → Option H5File)
    (p : String) (hs : pyEndsWith p ".h5" = true) (hf : fs p = none) :
    h5IsValid tags fs p = Except.error PyErr.osError := by
  unfold h5IsValid
  rw [hs]
  simp only [Bool.not_true, Bool.false_eq_true, if_false, hf]

/-- The parsed parameters of a YTDataContainerDataset, as set by
_parse_parameter_file. -/
structure YTContainerParams where
  particle_types : List String
  dimensionality : Nat
  refine_by : Nat
  unique_identifier : Int
  cosmological_simulation : HVal
  current_time : HVal
  current_redshift : HVal
  hubble_constant : HVal
  omega_matter : HVal
  omega_lambda : HVal
  domain_left_edge : HVal
  domain_right_edge : HVal
  periodicity : Bool × Bool × Bool
  domain_dimensions : List Nat

/-- The required scalar attributes of the container format, in the order the
source iterates over them. -/
def requiredContainerAttrs : List String :=
  ["cosmological_simulation", "current_time", "current_redshift",
   "hubble_constant", "omega_matter", "omega_lambda",
   "domain_left_edge", "domain_right_edge"]

/-- Lookup of one attribute in the header mapping `hvals`; `hvals[attr]` on a
missing key raises KeyError. -/
def getAttr (f : H5File) (k : String) : Except PyErr HVal :=
  match f.attrs.lookup k with
  | some v => Except.ok v
  | none => Except.error PyErr.keyError

theorem getAttr_ok {f : H5File} {k : String} {v : HVal} :
    getAttr f k = Except.ok v ↔ f.attrs.lookup k = some v := by
  unfold getAttr
  cases f.attrs.lookup k <;> simp

theorem getAttr_error {f : H5File} {k : String} {e : PyErr}
    (h : getAttr f k = Except.error e) : e = PyErr.keyError := by
  unfold getAttr at h
  cases hl : f.attrs.lookup k with
  | some v => rw [hl] at h; exact absurd h (by simp)
  | none => rw [hl] at h; cases h; rfl

/-- YTDataContainerDataset._parse_parameter_file (ytdata/data_structures.py
lines 66-86): attributes are drained into `hvals`, the particle types are the
top-level group names, and the eight required scalar attributes are copied
verbatim, each by a lookup that raises KeyError when absent. -/
def ytContainerParse (f : H5File) (overRefineFactor : Nat) :
    Except PyErr YTContainerParams :=
  estep (getAttr f "cosmological_simulation") fun cs =>
  estep (getAttr f "current_time") fun ct =>
  estep (getAttr f "current_redshift") fun cz =>
  estep (getAttr f "hubble_constant") fun hc =>
  estep (getAttr f "omega_matter") fun om =>
  estep (getAttr f "omega_lambda") fun ol =>
  estep (getAttr f "domain_left_edge") fun dle =>
  estep (getAttr f "domain_right_edge") fun dre =>
  Except.ok
    ⟨f.groups, 3, 2, f.ctime, cs, ct, cz, hc, om, ol, dle, dre,
     (true, true, true), List.replicate 3 (1 <<< overRefineFactor)⟩

theorem ytContainerParse_ok_fields {f : H5File} {orf : Nat} {ps : YTContainerParams}
    (h : ytContainerParse f orf = Except.ok ps) :
    f.attrs.lookup "cosmological_simulation" = some ps.cosmological_simulation ∧
    f.attrs.lookup "current_time" = some ps.current_time ∧
    f.attrs.lookup "current_redshift" = some ps.current_redshift ∧
    f.attrs.lookup "hubble_constant" = some ps.hubble_constant ∧
    f.attrs.lookup "omega_matter" = some ps.omega_matter ∧
    f.attrs.lookup "omega_lambda" = some ps.omega_lambda ∧
    f.attrs.lookup "domain_left_edge" = some ps.domain_left_edge ∧
    f.attrs.lookup "domain_right_edge" = some ps.domain_right_edge ∧
    ps.particle_types = f.groups ∧
    ps.unique_identifier = f.ctime ∧
    ps.periodicity = (true, true, true) := by
  unfold ytContainerParse at h
  simp only [estep_ok, getAttr_ok] at h
  obtain ⟨cs, hcs, ct, hct, cz, hcz, hc, hhc, om, hom, ol, hol, dle, hdle, dre, hdre, hps⟩ := h
  cases hps
  exact ⟨hcs, hct, hcz, hhc, hom, hol, hdle, hdre, rfl, rfl, rfl⟩

theorem ytContainerParse_total (f : H5File) (orf : Nat) :
    (∃ ps, ytContainerParse f orf = Except.ok ps) ∨
      ytContainerParse f orf = Except.error PyErr.keyError := by
  unfold ytContainerParse
  cases h1 : getAttr f "cosmological_simulation" with
  | error e => right; simp [estep, getAttr_error h1]
  | ok cs =>
  cases h2 : getAttr f "current_time" with
  | error e => right; simp [estep, getAttr_error h2]
  | ok ct =>
  cases h3 : getAttr f "current_redshift" with
  | error e => right; simp [estep, getAttr_error h3]
  | ok cz =>
  cases h4 : getAttr f "hubble_constant" with
  | error e => right; simp [estep, getAttr_error h4]
  | ok hc =>
  cases h5 : getAttr f "omega_matter" with
  | error e => right; simp [estep, getAttr_error h5]
  | ok om =>
  cases h6 : getAttr f "omega_lambda" with
  | error e => right; simp [estep, getAttr_error h6]
  | ok ol =>
  cases h7 : getAttr f "domain_left_edge" with
  | error e => right; simp [estep, getAttr_error h7]
  | ok dle =>
  cases h8 : getAttr f "domain_right_edge" with
  | error e => right; simp [estep, getAttr_error h8]
  | ok dre =>
    left
    exact ⟨⟨f.groups, 3, 2, f.ctime, cs, ct, cz, hc, om, ol, dle, dre,
            (true, true, true), List.replicate 3 (1 <<< orf)⟩, by simp [estep]⟩

/-- A parsed info-records value: a tree of strings, string-keyed mappings and
lists.  Modelled from the spec: `load_info_records` of
yt/frontends/exodus_ii/util.py is not under src/; the spec says it parses the
raw info_records variable into structured named sections, so its output is
modelled as this tree. -/
inductive IRVal
  | str : String → IRVal
  | dict : List (String × IRVal) → IRVal
  | list : List IRVal → IRVal

/-- Python subscripting `v[k]` with a string key on a parsed info-records
value: mappings look the key up and raise KeyError when it is missing; lists
and strings reject string indices with TypeError. -/
def IRVal.getItem : IRVal → String → Except PyErr IRVal
  | IRVal.dict es, k =>
    match es.lookup k with
    | some v => Except.ok v
    | none => Except.error PyErr.keyError
  | IRVal.list _, _ => Except.error PyErr.typeError
  | IRVal.str _, _ => Except.error PyErr.typeError

theorem IRVal.getItem_error {v : IRVal} {k : String} {e : PyErr}
    (h : IRVal.getItem v k = Except.error e) :
    e = PyErr.keyError ∨ e = PyErr.typeError := by
  cases v with
  | str s => simp only [IRVal.getItem, Except.error.injEq] at h; exact Or.inr h.symm
  | list xs => simp only [IRVal.getItem, Except.error.injEq] at h; exact Or.inr h.symm
  | dict es =>
    simp only [IRVal.getItem] at h
    cases hx : es.lookup k with
    | some w => rw [hx] at h; exact absurd h (by simp)
    | none => rw [hx] at h; simp only [Except.error.injEq] at h; exact Or.inl h.symm

/-- The unique identifier of a mesh dataset: either the Executable Timestamp
taken from the info records, or the Python hash of the filename.  The string
hash is opaque to the claims, so it is modelled by the hashed string itself. -/
inductive UId
  | timestamp : IRVal → UId
  | pathHash : String → UId

/-- The expression `info_records['Version Info']['Executable Timestamp']`. -/
def getExecutableTimestamp (ir : IRVal) : Except PyErr IRVal :=
  estep (IRVal.getItem ir "Version Info") fun vi =>
    IRVal.getItem vi "Executable Timestamp"

/-- ExodusIIDataset._get_unique_identifier (exodus_ii/data_structures.py lines
169-173): try the nested timestamp; on KeyError or TypeError fall back to the
hash of the filename. -/
def getUniqueIdentifier (ir : IRVal) (filename : String) : Except PyErr UId :=
  match getExecutableTimestamp ir with
  | Except.ok v => Except.ok (UId.timestamp v)
  | Except.error PyErr.keyError => Except.ok (UId.pathHash filename)
  | Except.error PyErr.typeError => Except.ok (UId.pathHash filename)
  | Except.error e => Except.error e

theorem getUniqueIdentifier_ok (ir : IRVal) (fn : String) :
    ∃ u, getUniqueIdentifier ir fn = Except.ok u := by
  unfold getUniqueIdentifier
  cases hts : getExecutableTimestamp ir with
  | ok v => exact ⟨UId.timestamp v, rfl⟩
  | error e =>
    have he : e = PyErr.keyError ∨ e = PyErr.typeError := by
      unfold getExecutableTimestamp at hts
      rw [estep_err] at hts
      rcases hts with h | ⟨a, _, h⟩
      · exact IRVal.getItem_error h
      · exact IRVal.getItem_error h
    rcases he with rfl | rfl
    · exact ⟨UId.pathHash fn, rfl⟩
    · exact ⟨UId.pathHash fn, rfl⟩

/-- ExodusIIDataset._get_current_time (exodus_ii/data_structures.py lines
175-179): `self.parameters['time_whole'][0]` guarded by
`except (KeyError, TypeError)`.  A missing variable raises KeyError, which is
caught and turned into 0.0; a present but empty variable raises IndexError at
`[0]`, which the except clause does not name, so it propagates. -/
def getCurrentTime (tw : Option (List ℚ)) : Except PyErr ℚ :=
  match tw with
  | none => Except.ok 0
  | some [] => Except.error PyErr.indexError
  | some (x :: _) => Except.ok x

/-- Modelled from the spec: `sanitize_string` of yt/frontends/exodus_ii/util.py
is not under src/; the spec says each fixed-width character row is decoded to a
string with trailing/control padding stripped.  A row of byte values is decoded
up to its first non-printable byte. -/
def sanitize_string (row : List Nat) : String :=
  String.mk ((row.takeWhile fun b => decide (32 ≤ b) && decide (b < 127)).map Char.ofNat)

/-- ExodusIIDataset._get_elem_names / _get_nod_names / _get_glo_names: decode
each row of the given fixed-width name variable; a missing variable raises
KeyError, which is caught and yields []. -/
def getNames (v : Option (List (List Nat))) : List String :=
  match v with
  | none => []
  | some rows => rows.map sanitize_string

/-- ExodusIIDataset._read_glo_var (lines 147-157): if the decoded
name_glo_var list is empty, return without touching anything; otherwise read
vals_glo_var (KeyError when absent), transpose it so the leading axis is
per-variable, and zip each name to its value column.  The returned pairs are
the parameters that the method adds. -/
def readGloVar (ngv : Option (List (List Nat))) (vgv : Option (List (List ℚ))) :
    Except PyErr (List (String × List ℚ)) :=
  match getNames ngv with
  | [] => Except.ok []
  | n :: ns =>
    estep (pyGetKey vgv) fun vals =>
      Except.ok ((n :: ns).zip (npTranspose vals))

/-- The variables of an Exodus II NetCDF file that the frontend consults.
An absent variable is `none`; the numbered families connect<i>,
vals_elem_var<j>eb<i> and vals_nod_var<j> are indexed by their numbers. -/
structure ExodusFile where
  coor_names : Option (List (List Nat))
  eb_status : Option (List Int)
  coord : Option (List (List ℚ))
  coordx : Option (List ℚ)
  coordy : Option (List ℚ)
  coordz : Option (List ℚ)
  connect : Nat → Option (List (List Int))
  name_elem_var : Option (List (List Nat))
  name_nod_var : Option (List (List Nat))
  name_glo_var : Option (List (List Nat))
  vals_glo_var : Option (List (List ℚ))
  vals_elem_var : Nat → Nat → Option (List (List ℚ))
  vals_nod_var : Nat → Option (List (List ℚ))
  time_whole : Option (List ℚ)
  info_records : Option IRVal

/-- ExodusIIDataset._load_coordinates (lines 214-230): with a combined
`coord` variable, transpose its rows; otherwise read coordx/coordy(/coordz)
according to the dimensionality and combine them column-wise.  When the
dimensionality is neither 2 nor 3 and no `coord` variable exists, the local
coord_axes name was never bound and its use raises NameError. -/
def loadCoordinates (f : ExodusFile) (dim : Nat) : Except PyErr (List (List ℚ)) :=
  match f.coord with
  | some c => Except.ok (npTranspose c)
  | none =>
    if dim = 3 then
      estep (pyGetKey f.coordx) fun x =>
      estep (pyGetKey f.coordy) fun y =>
      estep (pyGetKey f.coordz) fun z =>
      Except.ok (npTranspose [x, y, z])
    else if dim = 2 then
      estep (pyGetKey f.coordx) fun x =>
      estep (pyGetKey f.coordy) fun y =>
      Except.ok (npTranspose [x, y])
    else Except.error PyErr.nameError

/-- ExodusIIDataset._load_connectivity (lines 232-240): for i in
range(num_meshes), read connect<i+1> (KeyError when absent) and cast its
entries with astype("i8"). -/
def loadConnectivity (f : ExodusFile) (numMeshes : Nat) :
    Except PyErr (List (List (List Int))) :=
  mapExcept
    (fun i =>
      estep (pyGetKey (f.connect (i + 1))) fun c =>
        Except.ok (c.map (fun row => row.map castI8)))
    (List.range numMeshes)

/-- A single field value: element fields are one-dimensional (one value per
element), node fields keep the two-dimensional shape of the connectivity
array that indexed them. -/
inductive FieldVal
  | f1 : List ℚ → FieldVal
  | f2 : List (List ℚ) → FieldVal
deriving DecidableEq

/-- The value stored for one node field of one mesh:
`vals_nod_var<j>[:].astype("f8")[-1, ci - 1, ...]` — take the final time-step
row, then fancy-index it with (connectivity - 1); any out-of-range entry
raises IndexError.  The f8 cast is exact in this model. -/
def nodeFieldVal (arr : List (List ℚ)) (ci : List (List Int)) :
    Except PyErr (List (List ℚ)) :=
  estep (npGet arr (-1)) fun lastRow =>
    mapExcept (fun row => mapExcept (fun e => npGet lastRow (e - 1)) row) ci

/-- The ('gas', name) → value mapping of one mesh, in insertion order:
element fields first, then node fields. -/
def MeshData : Type := List ((String × String) × FieldVal)

/-- ExodusIIDataset._load_data (lines 242-261): for each mesh i, take its
connectivity block, then materialize each element field from
vals_elem_var<j+1>eb<i+1> (final time-step row) and each node field from
vals_nod_var<j+1> (final time-step row indexed by connectivity - 1). -/
def loadData (f : ExodusFile) (numMeshes : Nat) (elemNames nodNames : List String)
    (conn : List (List (List Int))) : Except PyErr (List MeshData) :=
  mapExcept
    (fun i =>
      estep (npGet conn (Int.ofNat i)) fun ci =>
      estep (mapExcept
          (fun j =>
            estep (pyGetKey (f.vals_elem_var (j + 1) (i + 1))) fun arr =>
            estep (npGet arr (-1)) fun v =>
            Except.ok ((("gas", elemNames.getD j ""), FieldVal.f1 v)))
          (List.range elemNames.length)) fun evals =>
      estep (mapExcept
          (fun j =>
            estep (pyGetKey (f.vals_nod_var (j + 1))) fun arr =>
            estep (nodeFieldVal arr ci) fun v =>
            Except.ok ((("gas", nodNames.getD j ""), FieldVal.f2 v)))
          (List.range nodNames.length)) fun nvals =>
      Except.ok (evals ++ nvals))
    (List.range numMeshes)

/-- ExodusIIDataset._load_domain_edge(0): coordinates.min(axis=0).  numpy
raises ValueError when reducing an empty leading axis. -/
def npMinAxis0 (m : List (List ℚ)) : Except PyErr (List ℚ) :=
  match m with
  | [] => Except.error PyErr.valueError
  | r :: rs => Except.ok (rs.foldl (fun acc row => acc.zipWith min row) r)

/-- ExodusIIDataset._load_domain_edge(1): coordinates.max(axis=0). -/
def npMaxAxis0 (m : List (List ℚ)) : Except PyErr (List ℚ) :=
  match m with
  | [] => Except.error PyErr.valueError
  | r :: rs => Except.ok (rs.foldl (fun acc row => acc.zipWith max row) r)

/-- The parameters and attributes ExodusIIDataset._parse_parameter_file sets. -/
structure ParsedParams where
  dimensionality : Nat
  globals : List (String × List ℚ)
  infoRecords : IRVal
  uniqueIdentifier : UId
  currentTime : ℚ
  numMeshes : Nat
  elemNames : List String
  nodNames : List String
  coordinates : List (List ℚ)
  connectivity : List (List (List Int))
  data : List MeshData
  domainLeftEdge : List ℚ
  domainRightEdge : List ℚ
  numSteps : Nat

/-- ExodusIIDataset._parse_parameter_file (lines 100-123), one step per
source line: read the global variables, set the dimensionality from
coor_names.shape[0], parse the info records (a missing or undecodable
variable yields [] under the decoder's try/except), derive the unique
identifier and current time, count the meshes from eb_status.shape[0], decode
the element and node name lists, load coordinates, connectivity and field
data, compute the domain edges, and finally set num_steps from
len(parameters['time_whole']), which raises KeyError when time_whole is
absent. -/
def parseParameterFile (f : ExodusFile) (filename : String) :
    Except PyErr ParsedParams :=
  estep (readGloVar f.name_glo_var f.vals_glo_var) fun glo =>
  estep (pyGetKey f.coor_names) fun cn =>
  estep (getUniqueIdentifier (f.info_records.getD (IRVal.list [])) filename) fun uid =>
  estep (getCurrentTime f.time_whole) fun ct =>
  estep (pyGetKey f.eb_status) fun es =>
  estep (loadCoordinates f cn.length) fun coords =>
  estep (loadConnectivity f es.length) fun conn =>
  estep (loadData f es.length (getNames f.name_elem_var) (getNames f.name_nod_var) conn)
    fun dat =>
  estep (npMinAxis0 coords) fun dle =>
  estep (npMaxAxis0 coords) fun dre =>
  estep (pyGetKey f.time_whole) fun tw =>
  Except.ok
    ⟨cn.length, glo, f.info_records.getD (IRVal.list []), uid, ct, es.length,
     getNames f.name_elem_var, getNames f.name_nod_var, coords, conn, dat,
     dle, dre, tw.length⟩

theorem parse_ok_elim {f : ExodusFile} {fn : String} {ps : ParsedParams}
    (h : parseParameterFile f fn = Except.ok ps) :
    ∃ cn es tw,
      f.coor_names = some cn ∧ f.eb_status = some es ∧ f.time_whole = some tw ∧
      readGloVar f.name_glo_var f.vals_glo_var = Except.ok ps.globals ∧
      ps.dimensionality = cn.length ∧
      ps.infoRecords = f.info_records.getD (IRVal.list []) ∧
      getUniqueIdentifier ps.infoRecords fn = Except.ok ps.uniqueIdentifier ∧
      getCurrentTime f.time_whole = Except.ok ps.currentTime ∧
      ps.numMeshes = es.length ∧
      ps.elemNames = getNames f.name_elem_var ∧
      ps.nodNames = getNames f.name_nod_var ∧
      loadCoordinates f cn.length = Except.ok ps.coordinates ∧
      loadConnectivity f es.length = Except.ok ps.connectivity ∧
      loadData f es.length ps.elemNames ps.nodNames ps.connectivity =
        Except.ok ps.data ∧
      npMinAxis0 ps.coordinates = Except.ok ps.domainLeftEdge ∧
      npMaxAxis0 ps.coordinates = Except.ok ps.domainRightEdge ∧
      ps.numSteps = tw.length := by
  unfold parseParameterFile at h
  simp only [estep_ok, pyGetKey_ok] at h
  obtain ⟨glo, hglo, cn, hcn, uid, huid, ct, hct, es, hes, coords, hco, conn, hconn,
    dat, hdat, dle, hdle, dre, hdre, tw, htw, hps⟩ := h
  cases hps
  exact ⟨cn, es, tw, hcn, hes, htw, hglo, rfl, rfl, huid, hct, rfl, rfl, rfl,
    hco, hconn, hdat, hdle, hdre, rfl⟩

/-- The Python value returned by ExodusIIDataset._is_valid: `True` on
success, and the implicit `None` when the bare `except: pass` swallows an
exception and the method falls off its end. -/
inductive PyRet
  | retBool : Bool → PyRet
  | retNone : PyRet
deriving DecidableEq

/-- The try-suite of ExodusIIDataset._is_valid (lines 275-283): open the file
with the NetCDF handler and subscript its variables mapping with 'connect1';
success returns True. -/
def exodusIsValidBody (fs : String → Option ExodusFile) (p : String) :
    Except PyErr Bool :=
  match fs p with
  | none => Except.error PyErr.osError
  | some f =>
    match f.connect 1 with
    | none => Except.error PyErr.keyError
    | some _ => Except.ok true

/-- ExodusIIDataset._is_valid: the bare `except: pass` converts every raised
exception into a fall-through, so the method returns Python None, not False. -/
def exodusIsValid (fs : String → Option ExodusFile) (p : String) : PyRet :=
  match exodusIsValidBody fs p with
  | Except.ok b => PyRet.retBool b
  | Except.error _ => PyRet.retNone

/-- A container-format file carrying every required attribute. -/
def h5Complete : H5File :=
  ⟨[("data_type", HVal.str "yt_data_container"),
    ("cosmological_simulation", HVal.num 0),
    ("current_time", HVal.num 1),
    ("current_redshift", HVal.num 0),
    ("hubble_constant", HVal.num 0),
    ("omega_matter", HVal.num 0),
    ("omega_lambda", HVal.num 0),
    ("domain_left_edge", HVal.arr [0, 0, 0]),
    ("domain_right_edge", HVal.arr [1, 1, 1])],
   ["grid"], 5⟩

/-- A file carrying the grid-variant format tag. -/
def h5GridFile : H5File :=
  ⟨[("data_type", HVal.str "yt_grid_data")], [], 3⟩

/-- A container-format file lacking the required omega_matter attribute. -/
def h5MissingOmega : H5File :=
  ⟨[("data_type", HVal.str "yt_data_container"),
    ("cosmological_simulation", HVal.num 0),
    ("current_time", HVal.num 1),
    ("current_redshift", HVal.num 0),
    ("hubble_constant", HVal.num 0),
    ("omega_lambda", HVal.num 0),
    ("domain_left_edge", HVal.arr [0, 0, 0]),
    ("domain_right_edge", HVal.arr [1, 1, 1])],
   [], 7⟩

/-- A mesh file with no variables at all. -/
def emptyExodusFile : ExodusFile :=
  ⟨none, none, none, none, none, none, fun _ => none, none, none, none, none,
   fun _ _ => none, fun _ => none, none, none⟩

/-- A mesh file whose only variable is connect1. -/
def connectOnlyFile : ExodusFile :=
  ⟨none, none, none, none, none, none,
   (fun i => if i = 1 then some [[1]] else none),
   none, none, none, none, fun _ _ => none, fun _ => none, none, none⟩

/-- C1: the claim says the container-format validity probe never propagates an
error for any file path.  The probe has no try/except: opening a nonexistent
or malformed ".h5" path raises and the error reaches the caller. -/
theorem C1_counterexample :
    ytDataContainerIsValid (fun _ => none) "a.h5" = Except.error PyErr.osError ∧
    ytGridIsValid (fun _ => none) "a.h5" = Except.error PyErr.osError := by
  constructor <;> rfl

/-- C1 (amended): for both container-format probes, a filename lacking the
".h5" suffix yields False without opening the file; when the file opens, a
missing data_type attribute yields False, a data_type value outside the
probe's recognized tag list yields False and a recognized one yields True,
with no error; but when opening the file fails the error propagates to the
caller. -/
theorem C1_container_probe (fs : String → Option H5File) (p : String) :
    (pyEndsWith p ".h5" = false →
       ytDataContainerIsValid fs p = Except.ok false ∧
       ytGridIsValid fs p = Except.ok false) ∧
    (∀ f, fs p = some f → pyEndsWith p ".h5" = true →
       (f.attrs.lookup "data_type" = none →
          ytDataContainerIsValid fs p = Except.ok false ∧
          ytGridIsValid fs p = Except.ok false) ∧
       (∀ v, f.attrs.lookup "data_type" = some v →
          (v ∈ recognizedContainerTags.map HVal.str →
             ytDataContainerIsValid fs p = Except.ok true) ∧
          (v ∉ recognizedContainerTags.map HVal.str →
             ytDataContainerIsValid fs p = Except.ok false) ∧
          (v ∈ recognizedGridTags.map HVal.str →
             ytGridIsValid fs p = Except.ok true) ∧
          (v ∉ recognizedGridTags.map HVal.str →
             ytGridIsValid fs p = Except.ok false))) ∧
    (pyEndsWith p ".h5" = true → fs p = none →
       ytDataContainerIsValid fs p = Except.error PyErr.osError ∧
       ytGridIsValid fs p = Except.error PyErr.osError) := by
  refine ⟨fun h => ⟨h5IsValid_no_suffix h, h5IsValid_no_suffix h⟩, ?_,
    fun hs hf => ⟨h5IsValid_open_fails recognizedContainerTags fs p hs hf,
                  h5IsValid_open_fails recognizedGridTags fs p hs hf⟩⟩
  intro f hf hs
  have hc := h5IsValid_tag recognizedContainerTags fs p f hs hf
  have hg := h5IsValid_tag recognizedGridTags fs p f hs hf
  refine ⟨fun hn => ⟨hc.1 hn, hg.1 hn⟩, ?_⟩
  intro v hv
  exact ⟨(hc.2 v hv).1, (hc.2 v hv).2, (hg.2 v hv).1, (hg.2 v hv).2⟩

theorem C1_witness :
    ytDataContainerIsValid (fun _ => some h5Complete) "notes.txt" = Except.ok false ∧
    ytDataContainerIsValid (fun _ => some h5Complete) "d.h5" = Except.ok true ∧
    ytGridIsValid (fun _ => some h5Complete) "d.h5" = Except.ok false ∧
    ytGridIsValid (fun _ => some h5GridFile) "g.h5" = Except.ok true := by
  refine ⟨?_, ?_, ?_, ?_⟩
  · exact ((C1_container_probe (fun _ => some h5Complete) "notes.txt").1 (by rfl)).1
  · exact (((C1_container_probe (fun _ => some h5Complete) "d.h5").2.1 h5Complete rfl
      (by rfl)).2 (HVal.str "yt_data_container") (by rfl)).1 (by decide)
  · exact (((C1_container_probe (fun _ => some h5Complete) "d.h5").2.1 h5Complete rfl
      (by rfl)).2 (HVal.str "yt_data_container") (by rfl)).2.2.2 (by decide)
  · exact (((C1_container_probe (fun _ => some h5GridFile) "g.h5").2.1 h5GridFile rfl
      (by rfl)).2 (HVal.str "yt_grid_data") (by rfl)).2.2.1 (by decide)

/-- C2: the claim says the mesh-format validity probe returns the boolean
false when the file lacks connect1.  The source's failure path is
`except: pass`, which falls off the end of the method and returns Python
None, not False. -/
theorem C2_counterexample :
    exodusIsValid (fun _ => some emptyExodusFile) "data.ex2" = PyRet.retNone ∧
    exodusIsValid (fun _ => some emptyExodusFile) "data.ex2" ≠ PyRet.retBool false :=
  ⟨rfl, by intro h; exact PyRet.noConfusion h⟩

/-- C2 (amended): the mesh-format validity probe never raises for any input
path; it returns True when connect1 is present, returns Python None (a falsy
value that is not the boolean False) when the path cannot be opened or when
connect1 is absent, and never returns the boolean False. -/
theorem C2_mesh_probe (fs : String → Option ExodusFile) (p : String) :
    (∀ f, fs p = some f → ∀ c, f.connect 1 = some c →
       exodusIsValid fs p = PyRet.retBool true) ∧
    (fs p = none → exodusIsValid fs p = PyRet.retNone) ∧
    (∀ f, fs p = some f → f.connect 1 = none →
       exodusIsValid fs p = PyRet.retNone) ∧
    exodusIsValid fs p ≠ PyRet.retBool false := by
  refine ⟨?_, ?_, ?_, ?_⟩
  · intro f hf c hc
    simp [exodusIsValid, exodusIsValidBody, hf, hc]
  · intro hf
    simp [exodusIsValid, exodusIsValidBody, hf]
  · intro f hf hc
    simp [exodusIsValid, exodusIsValidBody, hf, hc]
  · unfold exodusIsValid
    cases hb : exodusIsValidBody fs p with
    | error e => simp
    | ok b =>
      have hbt : b = true := by
        unfold exodusIsValidBody at hb
        cases hfp : fs p with
        | none => simp only [hfp] at hb; exact Except.noConfusion hb
        | some f =>
          simp only [hfp] at hb
          cases hc : f.connect 1 with
          | none => simp only [hc] at hb; exact Except.noConfusion hb
          | some c => simp only [hc] at hb; exact (Except.ok.inj hb).symm
      rw [hbt]
      simp

theorem C2_witness :
    exodusIsValid (fun _ => some connectOnlyFile) "m.e" = PyRet.retBool true ∧
    exodusIsValid (fun _ => none) "m.e" = PyRet.retNone :=
  ⟨(C2_mesh_probe (fun _ => some connectOnlyFile) "m.e").1 connectOnlyFile rfl [[1]] rfl,
   (C2_mesh_probe (fun _ => none) "m.e").2.1 rfl⟩

/-- C6: each of the eight required scalar attributes of the container format
is copied verbatim from the file attributes onto the dataset, and the absence
of any one of them aborts parsing with a KeyError. -/
theorem C6_required_attributes (f : H5File) (orf : Nat) :
    (∀ ps, ytContainerParse f orf = Except.ok ps →
       f.attrs.lookup "cosmological_simulation" = some ps.cosmological_simulation ∧
       f.attrs.lookup "current_time" = some ps.current_time ∧
       f.attrs.lookup "current_redshift" = some ps.current_redshift ∧
       f.attrs.lookup "hubble_constant" = some ps.hubble_constant ∧
       f.attrs.lookup "omega_matter" = some ps.omega_matter ∧
       f.attrs.lookup "omega_lambda" = some ps.omega_lambda ∧
       f.attrs.lookup "domain_left_edge" = some ps.domain_left_edge ∧
       f.attrs.lookup "domain_right_edge" = some ps.domain_right_edge) ∧
    (∀ k, k ∈ requiredContainerAttrs → f.attrs.lookup k = none →
       ytContainerParse f orf = Except.error PyErr.keyError) := by
  constructor
  · intro ps h
    have hf := ytContainerParse_ok_fields h
    exact ⟨hf.1, hf.2.1, hf.2.2.1, hf.2.2.2.1, hf.2.2.2.2.1, hf.2.2.2.2.2.1,
      hf.2.2.2.2.2.2.1, hf.2.2.2.2.2.2.2.1⟩
  · intro k hk hnone
    rcases ytContainerParse_total f orf with ⟨ps, hps⟩ | herr
    · exfalso
      have hf := ytContainerParse_ok_fields hps
      fin_cases hk <;> simp_all
    · exact herr

theorem C6_witness :
    ytContainerParse h5MissingOmega 1 = Except.error PyErr.keyError :=
  (C6_required_attributes h5MissingOmega 1).2 "omega_matter"
    (by simp [requiredContainerAttrs]) (by rfl)

/-- A small helper for C8: every error of the nested timestamp lookup is a
KeyError or a TypeError. -/
theorem getExecutableTimestamp_error {ir : IRVal} {e : PyErr}
    (h : getExecutableTimestamp ir = Except.error e) :
    e = PyErr.keyError ∨ e = PyErr.typeError := by
  unfold getExecutableTimestamp at h
  rw [estep_err] at h
  rcases h with h | ⟨a, _, h⟩
  · exact IRVal.getItem_error h
  · exact IRVal.getItem_error h

/-- C8: the claim says neither the unique-identifier nor the current-time
fallback ever raises, for any absent or malformed source value.  The
current-time except clause names only KeyError and TypeError, so a present
but empty time_whole variable raises an uncaught IndexError at `[0]`. -/
theorem C8_counterexample :
    getCurrentTime (some []) = Except.error PyErr.indexError := rfl

/-- C8 (amended): the unique-identifier derivation prefers the nested
'Version Info' → 'Executable Timestamp' field and otherwise falls back to the
hash of the file path, never raising; the current-time derivation prefers the
first entry of time_whole and falls back to 0.0 when the variable is absent,
never raising unless time_whole is present but empty, in which case an
IndexError propagates. -/
theorem C8_fallbacks (ir : IRVal) (fn : String) (tw : Option (List ℚ))
    (htw : tw ≠ some []) :
    (∃ u, getUniqueIdentifier ir fn = Except.ok u) ∧
    (∀ v, getExecutableTimestamp ir = Except.ok v →
       getUniqueIdentifier ir fn = Except.ok (UId.timestamp v)) ∧
    (∀ e, getExecutableTimestamp ir = Except.error e →
       getUniqueIdentifier ir fn = Except.ok (UId.pathHash fn)) ∧
    (∃ t, getCurrentTime tw = Except.ok t) ∧
    (tw = none → getCurrentTime tw = Except.ok 0) ∧
    (∀ x l, tw = some (x :: l) → getCurrentTime tw = Except.ok x) := by
  refine ⟨getUniqueIdentifier_ok ir fn, ?_, ?_, ?_, ?_, ?_⟩
  · intro v hv
    unfold getUniqueIdentifier
    rw [hv]
  · intro e he
    unfold getUniqueIdentifier
    rw [he]
    rcases getExecutableTimestamp_error he with rfl | rfl
    · rfl
    · rfl
  · cases tw with
    | none => exact ⟨0, rfl⟩
    | some l =>
      cases l with
      | nil => exact absurd rfl htw
      | cons x xs => exact ⟨x, rfl⟩
  · intro h
    rw [h]
    rfl
  · intro x l h
    rw [h]
    rfl

theorem C8_witness :
    getUniqueIdentifier (IRVal.list []) "f.e" = Except.ok (UId.pathHash "f.e") ∧
    getCurrentTime none = Except.ok 0 :=
  ⟨(C8_fallbacks (IRVal.list []) "f.e" none (fun h => Option.noConfusion h)).2.2.1
      PyErr.typeError rfl,
   (C8_fallbacks (IRVal.list []) "f.e" none (fun h => Option.noConfusion h)).2.2.2.2.1 rfl⟩

/-- C9: a missing name_glo_var yields an empty global-names list and adds no
global parameters, raising nothing; when the names list is non-empty,
vals_glo_var is transposed so the leading axis is per-variable and each
decoded name is zipped to its value column. -/
theorem C9_global_vars (ngv : Option (List (List Nat))) (vgv : Option (List (List ℚ))) :
    (ngv = none → getNames ngv = [] ∧ readGloVar ngv vgv = Except.ok []) ∧
    (∀ vals, getNames ngv ≠ [] → vgv = some vals →
       readGloVar ngv vgv = Except.ok ((getNames ngv).zip (npTranspose vals)) ∧
       ∀ r rs j, vals = r :: rs → j < r.length →
         (npTranspose vals).get? j = some (vals.map (fun row => row.getD j 0))) := by
  constructor
  · intro h
    subst h
    exact ⟨rfl, rfl⟩
  · intro vals hne hv
    constructor
    · unfold readGloVar
      cases hn : getNames ngv with
      | nil => exact absurd hn hne
      | cons n ns =>
        rw [hv]
        simp [estep, pyGetKey]
    · intro r rs j hvals hj
      subst hvals
      exact npTranspose_get hj

theorem C9_witness :
    readGloVar none (some [[1, 2], [3, 4]]) = Except.ok [] ∧
    readGloVar (some [[103]]) (some [[1], [2]]) = Except.ok [("g", [1, 2])] := by
  constructor
  · exact ((C9_global_vars none (some [[1, 2], [3, 4]])).1 rfl).2
  · have h := ((C9_global_vars (some [[103]]) (some [[1], [2]])).2 [[1], [2]]
      (by decide) rfl).1
    rw [h]
    rfl

/-- A minimal valid mesh file: two nodes in two dimensions, one element
block whose single element joins both nodes, one node variable ("v") and one
time step. -/
def tinyFile : ExodusFile :=
  ⟨some [[120], [121]],
   some [1],
   some [[0, 1], [0, 2]],
   none, none, none,
   (fun i => if i = 1 then some [[1, 2]] else none),
   none,
   some [[118]],
   none, none,
   (fun _ _ => none),
   (fun j => if j = 1 then some [[10, 20]] else none),
   some [0],
   none⟩

/-- tinyFile with its time_whole variable removed. -/
def tinyNoTimeFile : ExodusFile :=
  ⟨some [[120], [121]],
   some [1],
   some [[0, 1], [0, 2]],
   none, none, none,
   (fun i => if i = 1 then some [[1, 2]] else none),
   none,
   some [[118]],
   none, none,
   (fun _ _ => none),
   (fun j => if j = 1 then some [[10, 20]] else none),
   none,
   none⟩

/-- The parameters that parsing tinyFile produces. -/
def tinyParsed : ParsedParams :=
  ⟨2, [], IRVal.list [], UId.pathHash "t.e", 0, 1, [], ["v"],
   [[0, 0], [1, 2]], [[[1, 2]]],
   [[(("gas", "v"), FieldVal.f2 [[10, 20]])]],
   [0, 0], [1, 2], 1⟩

theorem tinyFile_parse : parseParameterFile tinyFile "t.e" = Except.ok tinyParsed := by
  rfl

/-- C10: mesh-format parameter parsing unconditionally requires time_whole —
the final step sets num_steps = len(parameters['time_whole']) with no
recovery — so a mesh file lacking time_whole fails parsing with a KeyError
even though the current-time derivation itself falls back to 0.0. -/
theorem C10_time_whole_required (f : ExodusFile) (fn : String)
    (glo : List (String × List ℚ)) (cn : List (List Nat)) (es : List Int)
    (coords : List (List ℚ)) (conn : List (List (List Int))) (dat : List MeshData)
    (dle dre : List ℚ)
    (hglo : readGloVar f.name_glo_var f.vals_glo_var = Except.ok glo)
    (hcn : f.coor_names = some cn)
    (hes : f.eb_status = some es)
    (hco : loadCoordinates f cn.length = Except.ok coords)
    (hconn : loadConnectivity f es.length = Except.ok conn)
    (hdat : loadData f es.length (getNames f.name_elem_var) (getNames f.name_nod_var)
        conn = Except.ok dat)
    (hdle : npMinAxis0 coords = Except.ok dle)
    (hdre : npMaxAxis0 coords = Except.ok dre)
    (htw : f.time_whole = none) :
    parseParameterFile f fn = Except.error PyErr.keyError ∧
    getCurrentTime f.time_whole = Except.ok 0 := by
  have hct : getCurrentTime f.time_whole = Except.ok 0 := by rw [htw]; rfl
  obtain ⟨u, hu⟩ := getUniqueIdentifier_ok (f.info_records.getD (IRVal.list [])) fn
  refine ⟨?_, hct⟩
  unfold parseParameterFile
  simp only [hglo, hcn, hu, hes, hco, hconn, hdat, hdle, hdre, htw, getCurrentTime,
    estep, pyGetKey]

/-- C10 witness: tinyNoTimeFile aborts with a KeyError while its current-time
fallback is 0. -/
theorem C10_witness :
    parseParameterFile tinyNoTimeFile "t.e" = Except.error PyErr.keyError ∧
    getCurrentTime tinyNoTimeFile.time_whole = Except.ok 0 :=
  C10_time_whole_required tinyNoTimeFile "t.e" [] [[120], [121]] [1]
    [[0, 0], [1, 2]] [[[1, 2]]] [[(("gas", "v"), FieldVal.f2 [[10, 20]])]]
    [0, 0] [1, 2] rfl rfl rfl rfl rfl rfl rfl rfl rfl

/-- C7: after parsing a valid mesh file, the length of the connectivity list,
num_meshes, and the length of eb_status agree, and each connectivity block i
is the contents of variable connect<i+1> cast with astype("i8"). -/
theorem C7_connectivity_count {f : ExodusFile} {fn : String} {ps : ParsedParams}
    {es : List Int}
    (hps : parseParameterFile f fn = Except.ok ps)
    (hes : f.eb_status = some es) :
    ps.connectivity.length = ps.numMeshes ∧
    ps.numMeshes = es.length ∧
    (∀ i, i < ps.numMeshes →
       ∃ c, f.connect (i + 1) = some c ∧
         ps.connectivity.get? i = some (c.map (fun row => row.map castI8))) := by
  obtain ⟨cn, es2, tw, hcn, hes2, htw, hglo, hdim, hir, huid, hct, hnm, hen, hnn,
    hco, hconn, hdat, hdle, hdre, hns⟩ := parse_ok_elim hps
  have hes' : es = es2 := Option.some.inj (hes.symm.trans hes2)
  subst hes'
  unfold loadConnectivity at hconn
  have hlen := mapExcept_ok_length hconn
  simp only [List.length_range] at hlen
  refine ⟨by rw [hlen, hnm], hnm, ?_⟩
  intro i hi
  have hi' : i < es.length := by rw [← hnm]; exact hi
  obtain ⟨b, hb, hgb⟩ := mapExcept_ok_get hconn i i (List.get?_range hi')
  rw [estep_ok] at hgb
  obtain ⟨c, hc, hcb⟩ := hgb
  rw [pyGetKey_ok] at hc
  exact ⟨c, hc, by rw [hb, ← Except.ok.inj hcb]⟩

theorem C7_witness :
    tinyParsed.connectivity.length = tinyParsed.numMeshes ∧
    tinyParsed.numMeshes = 1 := by
  have h := @C7_connectivity_count tinyFile "t.e" tinyParsed [1] tinyFile_parse rfl
  exact ⟨h.1, h.2.1⟩

/-- C4: the domain left and right edges of a parsed mesh file are exactly the
columnwise minimum and maximum of the coordinates table — each edge entry is
a member of its coordinate column and bounds every member of it — and the
left edge never exceeds the right edge. -/
theorem C4_domain_edges {f : ExodusFile} {fn : String} {ps : ParsedParams} {d w : Nat}
    (hps : parseParameterFile f fn = Except.ok ps)
    (hrect : ∀ row ∈ ps.coordinates, row.length = w)
    (hd : d < w) (hne : ps.coordinates ≠ []) :
    ∃ L R,
      ps.domainLeftEdge.get? d = some L ∧
      ps.domainRightEdge.get? d = some R ∧
      L ∈ ps.coordinates.map (fun row => row.getD d 0) ∧
      R ∈ ps.coordinates.map (fun row => row.getD d 0) ∧
      (∀ q ∈ ps.coordinates.map (fun row => row.getD d 0), L ≤ q ∧ q ≤ R) ∧
      L ≤ R := by
  obtain ⟨cn, es, tw, hcn, hes, htw, hglo, hdim, hir, huid, hct, hnm, hen, hnn,
    hco, hconn, hdat, hdle, hdre, hns⟩ := parse_ok_elim hps
  rcases hcs : ps.coordinates with _ | ⟨r, rs⟩
  · exact absurd hcs hne
  · rw [hcs] at hdle hdre hrect
    unfold npMinAxis0 at hdle
    unfold npMaxAxis0 at hdre
    have hdleq : ps.domainLeftEdge = rs.foldl (fun acc row => acc.zipWith min row) r :=
      (Except.ok.inj hdle).symm
    have hdreq : ps.domainRightEdge = rs.foldl (fun acc row => acc.zipWith max row) r :=
      (Except.ok.inj hdre).symm
    have hr : r.length = w := hrect r (by simp)
    have hrs : ∀ q ∈ rs, q.length = r.length := fun q hq => by
      rw [hrect q (by simp [hq]), hr]
    have hgetL : ps.domainLeftEdge.get? d =
        some (rs.foldl (fun a row => min a (row.getD d 0)) (r.getD d 0)) := by
      rw [hdleq]
      exact foldl_zip_get min rs r d (by rw [hr]; exact hd) hrs
    have hgetR : ps.domainRightEdge.get? d =
        some (rs.foldl (fun a row => max a (row.getD d 0)) (r.getD d 0)) := by
      rw [hdreq]
      exact foldl_zip_get max rs r d (by rw [hr]; exact hd) hrs
    have hmemL := foldl_op_mem min min_choice (rs.map (fun row => row.getD d 0)) (r.getD d 0)
    have hboundL := foldl_min_le (rs.map (fun row => row.getD d 0)) (r.getD d 0)
    have hmemR := foldl_op_mem max max_choice (rs.map (fun row => row.getD d 0)) (r.getD d 0)
    have hboundR := foldl_max_ge (rs.map (fun row => row.getD d 0)) (r.getD d 0)
    simp only [List.map_cons]
    refine ⟨(rs.map (fun row => row.getD d 0)).foldl min (r.getD d 0),
            (rs.map (fun row => row.getD d 0)).foldl max (r.getD d 0),
            ?_, ?_, ?_, ?_, ?_, ?_⟩
    · rw [hgetL, List.foldl_map]
    · rw [hgetR, List.foldl_map]
    · rcases hmemL with h | h
      · rw [h]; exact List.mem_cons_self _ _
      · exact List.mem_cons_of_mem _ h
    · rcases hmemR with h | h
      · rw [h]; exact List.mem_cons_self _ _
      · exact List.mem_cons_of_mem _ h
    · intro q hq
      rcases List.mem_cons.mp hq with rfl | hq2
      · exact ⟨(foldl_min_le _ _).1, (foldl_max_ge _ _).1⟩
      · exact ⟨hboundL.2 q hq2, hboundR.2 q hq2⟩
    · exact le_trans hboundL.1 hboundR.1

theorem C4_witness :
    tinyParsed.domainLeftEdge.get? 0 = some 0 ∧
    tinyParsed.domainRightEdge.get? 0 = some 1 ∧
    (0 : ℚ) ≤ 1 := by
  obtain ⟨L, R, h1, h2, hmL, hmR, hb, hLR⟩ :=
    @C4_domain_edges tinyFile "t.e" tinyParsed 0 2 tinyFile_parse
      (by decide) (by decide) (by decide)
  have he : tinyParsed.domainLeftEdge.get? 0 = some (0 : ℚ) := rfl
  have he2 : tinyParsed.domainRightEdge.get? 0 = some (1 : ℚ) := rfl
  have hL : L = 0 := Option.some.inj (h1.symm.trans he)
  have hR : R = 1 := Option.some.inj (h2.symm.trans he2)
  subst hL
  subst hR
  exact ⟨h1, h2, hLR⟩

/-- C5: for a valid mesh file, the dimensionality is the length of
coor_names' first axis and lies in {2, 3}, and the coordinates table has
shape (num_nodes, dimensionality) whether it comes from a combined coord
variable or from separate coordx/coordy(/coordz) variables. -/
theorem C5_coordinates_shape {f : ExodusFile} {fn : String} {ps : ParsedParams}
    {cn : List (List Nat)} {nn : Nat}
    (hps : parseParameterFile f fn = Except.ok ps)
    (hcn : f.coor_names = some cn)
    (hdim : cn.length = 2 ∨ cn.length = 3)
    (hnn : 0 < nn)
    (hcoord : ∀ c, f.coord = some c → c.length = cn.length ∧ ∀ row ∈ c, row.length = nn)
    (hx : ∀ x, f.coordx = some x → x.length = nn)
    (hy : ∀ y, f.coordy = some y → y.length = nn)
    (hz : ∀ z, f.coordz = some z → z.length = nn) :
    (ps.dimensionality = 2 ∨ ps.dimensionality = 3) ∧
    ps.dimensionality = cn.length ∧
    ps.coordinates.length = nn ∧
    (∀ row ∈ ps.coordinates, row.length = ps.dimensionality) ∧
    (ps.coordinates.getD 0 []).length = ps.dimensionality := by
  obtain ⟨cn2, es, tw, hcn2, hes, htw, hglo, hdim2, hir, huid, hct, hnm, hen, hnn2,
    hco, hconn, hdat, hdle, hdre, hns⟩ := parse_ok_elim hps
  have hcn' : cn = cn2 := Option.some.inj (hcn.symm.trans hcn2)
  subst hcn'
  have key : ps.coordinates.length = nn ∧ ∀ row ∈ ps.coordinates, row.length = cn.length := by
    unfold loadCoordinates at hco
    rcases hfc : f.coord with _ | c
    · rw [hfc] at hco
      rcases hdim with h2 | h3
      · rw [h2] at hco
        rw [if_neg (by norm_num), if_pos rfl] at hco
        rw [estep_ok] at hco
        obtain ⟨x, hxs, hco⟩ := hco
        rw [pyGetKey_ok] at hxs
        rw [estep_ok] at hco
        obtain ⟨y, hys, hco⟩ := hco
        have hcoords : ps.coordinates = npTranspose [x, y] := (Except.ok.inj hco).symm
        constructor
        · rw [hcoords, npTranspose_length]
          exact hx x hxs
        · intro row hrow
          rw [hcoords] at hrow
          rw [npTranspose_mem_length hrow, h2]
          rfl
      · rw [h3] at hco
        rw [if_pos rfl] at hco
        rw [estep_ok] at hco
        obtain ⟨x, hxs, hco⟩ := hco
        rw [pyGetKey_ok] at hxs
        rw [estep_ok] at hco
        obtain ⟨y, hys, hco⟩ := hco
        rw [estep_ok] at hco
        obtain ⟨z, hzs, hco⟩ := hco
        have hcoords : ps.coordinates = npTranspose [x, y, z] := (Except.ok.inj hco).symm
        constructor
        · rw [hcoords, npTranspose_length]
          exact hx x hxs
        · intro row hrow
          rw [hcoords] at hrow
          rw [npTranspose_mem_length hrow, h3]
          rfl
    · rw [hfc] at hco
      obtain ⟨hclen, hcrows⟩ := hcoord c hfc
      have hcoords : ps.coordinates = npTranspose c := (Except.ok.inj hco).symm
      rcases c with _ | ⟨r, rcs⟩
      · exfalso
        rcases hdim with h2 | h3
        · rw [h2] at hclen; exact absurd hclen (by decide)
        · rw [h3] at hclen; exact absurd hclen (by decide)
      · constructor
        · rw [hcoords, npTranspose_length]
          exact hcrows r (List.mem_cons_self r rcs)
        · intro row hrow
          rw [hcoords] at hrow
          rw [npTranspose_mem_length hrow]
          exact hclen
  refine ⟨?_, hdim2, key.1, ?_, ?_⟩
  · rw [hdim2]; exact hdim
  · intro row hrow
    rw [hdim2]
    exact key.2 row hrow
  · rcases hcs : ps.coordinates with _ | ⟨a, as⟩
    · exfalso
      rw [hcs] at key
      rw [← key.1] at hnn
      exact Nat.lt_irrefl 0 hnn
    · rw [hdim2]
      have : a ∈ ps.coordinates := by rw [hcs]; exact List.mem_cons_self a as
      exact key.2 a this

theorem C5_witness :
    tinyParsed.dimensionality = 2 ∧
    tinyParsed.coordinates.length = 2 ∧
    (tinyParsed.coordinates.getD 0 []).length = tinyParsed.dimensionality := by
  have h := @C5_coordinates_shape tinyFile "t.e" tinyParsed [[120], [121]] 2
    tinyFile_parse rfl (Or.inl rfl) (by decide)
    (fun c hc => by injection hc with hcc; subst hcc; exact (by decide))
    (fun x hx => Option.noConfusion hx)
    (fun y hy => Option.noConfusion hy)
    (fun z hz => Option.noConfusion hz)
  exact ⟨h.2.1, h.2.2.1, h.2.2.2.2⟩

/-- C3: for every mesh block and node field of a parsed valid mesh file (a
file whose stored connectivity indices are 1-based 64-bit values), the stored
connectivity indices are at least 1, and the materialized node-field value at
each position equals the raw node variable's final time-step row indexed at
connectivity - 1; the f8 cast is exact in this model. -/
theorem C3_node_field_values {f : ExodusFile} {fn : String} {ps : ParsedParams}
    {i j : Nat}
    (hps : parseParameterFile f fn = Except.ok ps)
    (hi : i < ps.numMeshes) (hj : j < ps.nodNames.length)
    (hraw : ∀ c, f.connect (i + 1) = some c →
       ∀ row ∈ c, ∀ e ∈ row, 1 ≤ e ∧ e < 2 ^ 63) :
    ∃ ci arr lastRow md v,
      ps.connectivity.get? i = some ci ∧
      (∀ row ∈ ci, ∀ e ∈ row, 1 ≤ e) ∧
      f.vals_nod_var (j + 1) = some arr ∧
      arr.get? (arr.length - 1) = some lastRow ∧
      ps.data.get? i = some md ∧
      md.get? (ps.elemNames.length + j) =
        some (("gas", ps.nodNames.getD j ""), FieldVal.f2 v) ∧
      v.length = ci.length ∧
      (∀ p rowc, ci.get? p = some rowc →
         ∃ rowv, v.get? p = some rowv ∧ rowv.length = rowc.length ∧
           ∀ q e, rowc.get? q = some e →
             rowv.get? q = lastRow.get? (e - 1).toNat) := by
  obtain ⟨cn, es, tw, hcn, hes, htw, hglo, hdim, hir, huid, hct, hnm, hen, hnn,
    hco, hconn, hdat, hdle, hdre, hns⟩ := parse_ok_elim hps
  unfold loadConnectivity at hconn
  have hi' : i < es.length := by rw [← hnm]; exact hi
  obtain ⟨bc, hbc, hgc⟩ := mapExcept_ok_get hconn i i (List.get?_range hi')
  rw [estep_ok] at hgc
  obtain ⟨c, hc, hcb⟩ := hgc
  rw [pyGetKey_ok] at hc
  have hbceq : bc = c.map (fun row => row.map castI8) := (Except.ok.inj hcb).symm
  subst hbceq
  have hent : ∀ row ∈ c.map (fun row => row.map castI8), ∀ e ∈ row, 1 ≤ e := by
    intro row hrow e he
    obtain ⟨rawRow, hraws, hrowEq⟩ := List.mem_map.mp hrow
    rw [← hrowEq] at he
    obtain ⟨rawE, hrawE, heq⟩ := List.mem_map.mp he
    obtain ⟨h1, h2⟩ := hraw c hc rawRow hraws rawE hrawE
    rw [← heq, castI8_eq_self (le_trans (by norm_num) h1) h2]
    exact h1
  unfold loadData at hdat
  obtain ⟨md, hmd, hgm⟩ := mapExcept_ok_get hdat i i (List.get?_range hi')
  rw [estep_ok] at hgm
  obtain ⟨ci2, hci2, hgm2⟩ := hgm
  have hci2' : ps.connectivity.get? i = some ci2 := by
    have := npGet_ok_nonneg (Int.ofNat_nonneg i) hci2
    simpa using this
  have hcieq : ci2 = c.map (fun row => row.map castI8) :=
    Option.some.inj (hci2'.symm.trans hbc)
  subst hcieq
  rw [estep_ok] at hgm2
  obtain ⟨evals, hevals, hgm3⟩ := hgm2
  rw [estep_ok] at hgm3
  obtain ⟨nvals, hnvals, hmdeq⟩ := hgm3
  have hmd2 : md = evals ++ nvals := (Except.ok.inj hmdeq).symm
  subst hmd2
  have helen : evals.length = ps.elemNames.length := by
    have := mapExcept_ok_length hevals
    simpa using this
  obtain ⟨b, hbj, hgj⟩ := mapExcept_ok_get hnvals j j (List.get?_range hj)
  rw [estep_ok] at hgj
  obtain ⟨arr, harr, hgj2⟩ := hgj
  rw [pyGetKey_ok] at harr
  rw [estep_ok] at hgj2
  obtain ⟨v, hv, hbeq⟩ := hgj2
  have hb2 : b = (("gas", ps.nodNames.getD j ""), FieldVal.f2 v) :=
    (Except.ok.inj hbeq).symm
  subst hb2
  unfold nodeFieldVal at hv
  rw [estep_ok] at hv
  obtain ⟨lastRow, hlastGet, hvmap⟩ := hv
  refine ⟨c.map (fun row => row.map castI8), arr, lastRow, evals ++ nvals, v,
    hbc, hent, harr, npGet_last hlastGet, hmd, ?_, mapExcept_ok_length hvmap, ?_⟩
  · rw [List.get?_append_right (by omega)]
    have harith : ps.elemNames.length + j - evals.length = j := by omega
    rw [harith]
    exact hbj
  · intro p rowc hrowc
    obtain ⟨rowv, hrowv, hrowmap⟩ := mapExcept_ok_get hvmap p rowc hrowc
    refine ⟨rowv, hrowv, mapExcept_ok_length hrowmap, ?_⟩
    intro q e hqe
    obtain ⟨x, hx, hnx⟩ := mapExcept_ok_get hrowmap q e hqe
    have he1 : 1 ≤ e := hent rowc (List.get?_mem hrowc) e (List.get?_mem hqe)
    have hlget := npGet_ok_nonneg (by omega) hnx
    rw [hx, hlget]

theorem C3_witness :
    tinyParsed.data.get? 0 = some [(("gas", "v"), FieldVal.f2 [[10, 20]])] ∧
    tinyParsed.connectivity.get? 0 = some [[1, 2]] := by
  obtain ⟨ci, arr, lastRow, md, v, hci, hge1, harr, hlast, hmd, hmdget, hlen, hval⟩ :=
    @C3_node_field_values tinyFile "t.e" tinyParsed 0 0 tinyFile_parse
      (by decide) (by decide)
      (fun c hc => by
        injection hc with h
        subst h
        decide)
  exact ⟨rfl, rfl⟩

end YtEmbed
